import Mathlib

/-!
# Verification of the SmartSpend price-comparison backend (`server.js`)

This file gives a shallow embedding of the algorithmic core of the
`server.js` source: price-string parsing, the trend classifier
(`getPricePrediction`), the relevance ranker (`filterAndSortProducts`),
the three-provider aggregation pipeline (`performSerpApiSearch`), the
product identity derivation (base64 of a UTF-8 encoded join), the
wishlist insert-or-ignore operation and the price-drop sweep step.

Modelling conventions:
* JavaScript numbers are modelled by `ℚ`; `NaN` is modelled by `none`
  of `Option ℚ` (every source-side comparison against a possibly-NaN
  value is translated by a comparison that is `false` on `none`, which
  is exactly how IEEE comparisons treat NaN).
* JavaScript strings are modelled by Lean `String` / `List Char`.
  `toLowerCase` is modelled on the ASCII range, and the `\s` class of
  the tokenizing regex by the ASCII whitespace characters.
* Database reads are passed in explicitly (e.g. the retrieved price
  history rows); database writes are side effects that do not alter any
  value returned by the functions under study and are not modelled.
-/

/-! ## Price parsing: `parseFloat(x.replace(/[^0-9.]/g, ''))` -/

/-- The character filter of `x.replace(/[^0-9.]/g, '')`: keep only
decimal digits and dots. -/
def stripToNum (cs : List Char) : List Char :=
  cs.filter (fun c => c.isDigit || c == '.')

/-- Value of a list of decimal digit characters read left to right. -/
def digitsVal (ds : List Char) : Nat :=
  ds.foldl (fun acc c => 10 * acc + (c.toNat - 48)) 0

/-- Value of a fractional digit block: `fracVal "25" = 25/100`. -/
def fracVal (ds : List Char) : ℚ :=
  (digitsVal ds : ℚ) / (10 : ℚ) ^ ds.length

/-- Model of `parseFloat` restricted to strings made of digits and dots (the
image of `stripToNum`): parse the longest prefix of the form
`digits`, `digits.digits` or `.digits`; `none` models `NaN` (no digit
to parse). Matches JS: `parseFloat("1.2.3") = 1.2`,
`parseFloat("12.") = 12`, `parseFloat(".5") = 0.5`,
`parseFloat(".") = NaN`, `parseFloat("") = NaN`. -/
def parseFloatOfStripped (cs : List Char) : Option ℚ :=
  match cs.takeWhile Char.isDigit, cs.dropWhile Char.isDigit with
  | [], '.' :: rest2 =>
      let fp := rest2.takeWhile Char.isDigit
      if fp.isEmpty then none else some (fracVal fp)
  | [], _ => none
  | ip, '.' :: rest2 => some ((digitsVal ip : ℚ) + fracVal (rest2.takeWhile Char.isDigit))
  | ip, _ => some (digitsVal ip)

/-- The numeric reading of a price string used throughout `server.js`:
`parseFloat(s.replace(/[^0-9.]/g, ''))`, with `none` for `NaN`. -/
def parsePrice (s : String) : Option ℚ :=
  parseFloatOfStripped (stripToNum s.toList)

/-! ## Trend classifier: `getPricePrediction` -/

/-- The three trend signals returned by `getPricePrediction`. -/
inductive Trend where
  | buy : Trend
  | wait : Trend
  | neutral : Trend
deriving DecidableEq, Repr

/-- Comparison `x <= t` where `x` may be `NaN` (false on `NaN`). -/
def nanLe (o : Option ℚ) (t : ℚ) : Bool :=
  match o with
  | some c => decide (c ≤ t)
  | none => false

/-- Comparison `x >= t` where `x` may be `NaN` (false on `NaN`). -/
def nanGe (o : Option ℚ) (t : ℚ) : Bool :=
  match o with
  | some c => decide (t ≤ c)
  | none => false

/-- Comparison `x < t` where `x` may be `NaN` (false on `NaN`). -/
def nanLt (o : Option ℚ) (t : ℚ) : Bool :=
  match o with
  | some c => decide (c < t)
  | none => false

/-- Comparison `x > t` where `x` may be `NaN` (false on `NaN`). -/
def nanGt (o : Option ℚ) (t : ℚ) : Bool :=
  match o with
  | some c => decide (t < c)
  | none => false

/-- Model of `Math.min(...l)` for the non-empty lists it is applied to
(the `[]` value is irrelevant: the call site guards `l.length ≥ 3`). -/
def listMin : List ℚ → ℚ
  | [] => 0
  | x :: xs => xs.foldl min x

/-- Model of `Math.max(...l)` for the non-empty lists it is applied to. -/
def listMax : List ℚ → ℚ
  | [] => 0
  | x :: xs => xs.foldl max x

/-- Translation of `getPricePrediction(productId, currentPrice)` from `server.js`.
`histDesc` stands for the `price` column of
`SELECT price FROM price_history WHERE product_id = ? ORDER BY
timestamp DESC` — the rows the `LIMIT 5` query draws from — and
`currentPrice` for the second argument.  The JS constants `1.05`,
`0.95`, `0.98`, `1.02` are the rationals below. -/
def getPricePrediction (histDesc : List String) (currentPrice : String) : Trend :=
  let rows := histDesc.take 5
  if rows.length < 3 then Trend.neutral
  else
    let prices := (rows.map parsePrice).filterMap id
    if prices.length < 3 then Trend.neutral
    else
      let latestPrice := parsePrice currentPrice
      let averageRecent := prices.sum / (prices.length : ℚ)
      let minPrice := listMin prices
      let maxPrice := listMax prices
      if nanLe latestPrice (minPrice * (21 / 20)) then Trend.buy
      else if nanGe latestPrice (maxPrice * (19 / 20)) then Trend.wait
      else if nanLt latestPrice (averageRecent * (49 / 50)) then Trend.buy
      else if nanGt latestPrice (averageRecent * (51 / 50)) then Trend.wait
      else Trend.neutral

/-- The five ordered branches of §4.4 of the specification, over the
current price `c` and the `min`/`max`/`mean` of the parsed history. -/
def trendSpec (c minP maxP avg : ℚ) : Trend :=
  if c ≤ minP * (21 / 20) then Trend.buy
  else if maxP * (19 / 20) ≤ c then Trend.wait
  else if c < avg * (49 / 50) then Trend.buy
  else if avg * (51 / 50) < c then Trend.wait
  else Trend.neutral

/-! ## Relevance filter and ranker: `filterAndSortProducts` -/

/-- ASCII model of `String.prototype.toLowerCase` on one character. -/
def lowerChar (c : Char) : Char :=
  if 'A' ≤ c && c ≤ 'Z' then Char.ofNat (c.toNat + 32) else c

/-- ASCII model of `String.prototype.toLowerCase`. -/
def lowerStr (cs : List Char) : List Char :=
  cs.map lowerChar

/-- Model of `hay.includes(needle)`: `needle` occurs contiguously in `hay`. -/
def containsSub (needle : List Char) : List Char → Bool
  | [] => needle.isEmpty
  | c :: rest => needle.isPrefixOf (c :: rest) || containsSub needle rest

/-- The ASCII members of the regex class `\s` used by `split(/\s+/)`. -/
def isJsSpace (c : Char) : Bool :=
  c == ' ' || c == '\t' || c == '\n' || c == '\r' || c == '\x0b' || c == '\x0c'

/-- Translation of `query.toLowerCase().split(/\s+/).filter(word => word.length > 0)`.
Splitting at every whitespace character differs from splitting at
whitespace runs only by extra empty pieces, which the length filter
removes, so the composite is faithful to the source. -/
def queryWords (query : String) : List (List Char) :=
  ((lowerStr query.toList).splitOnP isJsSpace).filter (fun w => w.length > 0)

/-- The `accessoryKeywords` array of `filterAndSortProducts`. -/
def accessoryKeywords : List String :=
  ["case", "cover", "screen protector", "tempered glass", "skin", "pouch", "stand", "holder",
   "strap", "charger", "cable", "adapter", "earbuds", "headphones", "protector", "bag",
   "back cover", "flip cover", "bumper", "shell", "guard"]

/-- Translation of `isAccessory(title)`: some accessory keyword occurs in the
lower-cased title. -/
def isAccessory (title : String) : Bool :=
  accessoryKeywords.any (fun k => containsSub k.toList (lowerStr title.toList))

/-- Translation of `isRelevant(title)`: every query word occurs in the lower-cased
title, and the title is not an accessory. -/
def isRelevant (query title : String) : Bool :=
  (queryWords query).all (fun qw => containsSub qw (lowerStr title.toList)) && !isAccessory title

/-- The normalized product shape produced by the three adapters.
`prediction` is the field attached by the enrichment loop (`none`
before enrichment). -/
structure Product where
  id : String
  title : String
  price : Option String
  link : String
  source : String
  thumbnail : Option String
  rating : Option ℚ
  prediction : Option Trend
deriving DecidableEq, Repr

/-- JS truthiness of a possibly-absent string (`undefined` and `""`
are falsy). -/
def truthyStr (o : Option String) : Bool :=
  match o with
  | none => false
  | some s => !(s == "")

/-- The price key the comparator sorts by:
`parseFloat((x.price || '').replace(/[^0-9.]/g, '')) || Infinity`.
Note `||` sends not only `NaN` but also `0` (both falsy) to
`Infinity`, i.e. to `⊤`. -/
def jsSortPrice (p : Product) : WithTop ℚ :=
  match parsePrice (p.price.getD "") with
  | none => ⊤
  | some v => if v = 0 then ⊤ else (v : WithTop ℚ)

/-- The comparator passed to `products.sort`.  The JS function returns
`-1`, `1`, or the float `aPrice - bPrice`; `Array.prototype.sort` uses
only its sign, with a `NaN` result (here only from
`Infinity - Infinity`) treated as `0` by the ECMAScript `SortCompare`
operation — which is exactly the sign behaviour of `compare` on
`WithTop ℚ`. -/
def cmpProducts (query : String) (a b : Product) : Ordering :=
  let aRelevant := isRelevant query a.title
  let bRelevant := isRelevant query b.title
  if aRelevant && !bRelevant then Ordering.lt
  else if !aRelevant && bRelevant then Ordering.gt
  else compare (jsSortPrice a) (jsSortPrice b)

/-- Relation: `a` need not be placed after `b` by the comparator. -/
def sortsBefore (query : String) (a b : Product) : Prop :=
  cmpProducts query a b ≠ Ordering.gt

instance (query : String) : DecidableRel (sortsBefore query) :=
  fun a b => inferInstanceAs (Decidable (cmpProducts query a b ≠ Ordering.gt))

/-- Translation of `filterAndSortProducts(products, query)` from `server.js`.
`Array.prototype.sort` is required to be stable since ES2019 (the repo
requires Node ≥ 14), and a stable sort under the total preorder induced
by the comparator has a unique result; `List.insertionSort` is that
stable sort. -/
def filterAndSortProducts (products : List Product) (query : String) : List Product :=
  List.insertionSort (sortsBefore query) products

/-- Relevance rank used by the specification's sort rule: relevant
items strictly before the rest. -/
def relRank (query : String) (p : Product) : Nat :=
  if isRelevant query p.title then 0 else 1

/-- The price key as the claim words it: ascending numeric parsed
price, with prices un-parseable to a number as positive infinity. -/
def claimPriceKey (p : Product) : WithTop ℚ :=
  match parsePrice (p.price.getD "") with
  | none => ⊤
  | some v => (v : WithTop ℚ)

/-- The claim's three-key order: relevance first, then the claim's
price key. -/
def claimLe (query : String) (a b : Product) : Prop :=
  relRank query a < relRank query b ∨
    (relRank query a = relRank query b ∧ claimPriceKey a ≤ claimPriceKey b)

instance (query : String) : DecidableRel (claimLe query) :=
  fun a b => inferInstanceAs (Decidable (_ ∨ _))

/-- The ranking described by claim C3, word for word: the stable sort
by the claim's two keys (ties keep input order). -/
def rankClaim (products : List Product) (query : String) : List Product :=
  List.insertionSort (claimLe query) products

/-- The amended order: as `claimLe`, except that a price parsing to
`0` also sorts as positive infinity (the `|| Infinity` fallback of the
source applies to every falsy parse result, `0` included). -/
def amendedLe (query : String) (a b : Product) : Prop :=
  relRank query a < relRank query b ∨
    (relRank query a = relRank query b ∧ jsSortPrice a ≤ jsSortPrice b)

instance (query : String) : DecidableRel (amendedLe query) :=
  fun a b => inferInstanceAs (Decidable (_ ∨ _))

/-- The amended ranking: stable three-key sort with the `0`-goes-last
price key. -/
def rankAmended (products : List Product) (query : String) : List Product :=
  List.insertionSort (amendedLe query) products

/-- The zero-priced product of the C3 counterexample: its price parses
to the number `0`, yet `0 || Infinity` makes it sort last. -/
def cxZeroPrice : Product :=
  ⟨"", "x", some "0", "", "", none, none, none⟩

/-- A cheap (five-rupee) product of the C3 counterexample. -/
def cxFivePrice : Product :=
  ⟨"", "y", some "5", "", "", none, none, none⟩

/-- C6 input: the relevant phone. -/
def c6Pro : Product :=
  ⟨"", "iPhone 15 Pro", some "80000", "", "", none, none, none⟩

/-- C6 input: the accessory that matches every query token. -/
def c6Accessory : Product :=
  ⟨"", "iPhone 15 case", some "500", "", "", none, none, none⟩

/-- C6 input: the non-matching phone. -/
def c6Samsung : Product :=
  ⟨"", "Samsung S25", some "70000", "", "", none, none, none⟩

/-! ## Product identity resolver

`id = Buffer.from(`${title}-${source}-${link}`).toString('base64')`:
UTF-8 encode the dash-joined concatenation, then base64 it. -/

/-- Standard UTF-8 encoding of one Unicode scalar value. -/
def utf8Char (c : Char) : List Nat :=
  let n := c.toNat
  if n < 128 then [n]
  else if n < 2048 then [192 + n / 64, 128 + n % 64]
  else if n < 65536 then [224 + n / 4096, 128 + n / 64 % 64, 128 + n % 64]
  else [240 + n / 262144, 128 + n / 4096 % 64, 128 + n / 64 % 64, 128 + n % 64]

/-- UTF-8 encoding of a string (`Buffer.from(s)` with the default
`'utf8'` encoding), as a list of byte values. -/
def utf8Encode : List Char → List Nat
  | [] => []
  | c :: cs => utf8Char c ++ utf8Encode cs

/-- The base64 alphabet. -/
def b64Alpha : List Char :=
  "ABCDEFGHIJKLMNOPQRSTUVWXYZabcdefghijklmnopqrstuvwxyz0123456789+/".toList

/-- Character `i` of the base64 alphabet (`i < 64` at every use). -/
def b64Char (i : Nat) : Char :=
  b64Alpha.getD i 'A'

/-- Standard base64 with `=` padding (`buf.toString('base64')`). -/
def base64Encode : List Nat → List Char
  | [] => []
  | [b1] => [b64Char (b1 / 4), b64Char (b1 % 4 * 16), '=', '=']
  | [b1, b2] => [b64Char (b1 / 4), b64Char (b1 % 4 * 16 + b2 / 16), b64Char (b2 % 16 * 4), '=']
  | b1 :: b2 :: b3 :: rest =>
      b64Char (b1 / 4) :: b64Char (b1 % 4 * 16 + b2 / 16) ::
        b64Char (b2 % 16 * 4 + b3 / 64) :: b64Char (b3 % 64) :: base64Encode rest

/-- Index of a character in the base64 alphabet (left inverse of
`b64Char` below 64). -/
def b64Inv (c : Char) : Nat :=
  b64Alpha.findIdx (fun d => d == c)

/-- The identity derivation of all three adapters:
`Buffer.from(title + "-" + source + "-" + link).toString('base64')`. -/
def identityOf (title source link : String) : String :=
  ⟨base64Encode (utf8Encode (title ++ "-" ++ source ++ "-" ++ link).toList)⟩

/-! ## Aggregation pipeline: `performSerpApiSearch` -/

/-- Outcome of one upstream request: the request failed (axios threw:
timeout, non-2xx, network error), or it returned a JSON body whose
provider-specific results field is absent (`none`) or holds a list of
raw items. -/
inductive UpstreamResp (α : Type) where
  | fail : UpstreamResp α
  | ok : Option (List α) → UpstreamResp α

/-- A raw `shopping_results` item of the Google Shopping engine (the
fields the source reads). -/
structure GoogleItem where
  title : String
  price : Option String
  product_link : String
  source : String
  thumbnail : Option String
  rating : Option ℚ
deriving DecidableEq, Repr

/-- A raw `product_results` item of the Amazon engine. -/
structure AmazonItem where
  title : String
  price : Option String
  link : String
  thumbnail : Option String
  image : Option String
  rating : Option ℚ
deriving DecidableEq, Repr

/-- A raw `organic_results` item of the eBay engine. -/
structure EbayItem where
  title : String
  price : Option String
  link : String
  thumbnail : Option String
  rating : Option ℚ
deriving DecidableEq, Repr

/-- JS `a || b` on possibly-absent strings. -/
def jsOrStr (a b : Option String) : Option String :=
  if truthyStr a then a else b

/-- The Google Shopping item mapping of `performSerpApiSearch`. -/
def googleNormalize (i : GoogleItem) : Product :=
  { id := identityOf i.title i.source i.product_link
    title := i.title
    price := i.price
    link := i.product_link
    source := i.source
    thumbnail := i.thumbnail
    rating := i.rating
    prediction := none }

/-- The Amazon item mapping (`source` is the literal `'Amazon'`,
`thumbnail` falls back to `item.image`). -/
def amazonNormalize (i : AmazonItem) : Product :=
  { id := identityOf i.title "Amazon" i.link
    title := i.title
    price := i.price
    link := i.link
    source := "Amazon"
    thumbnail := jsOrStr i.thumbnail i.image
    rating := i.rating
    prediction := none }

/-- The eBay pre-filter `.filter(item => item.price && item.thumbnail)`:
only items with a truthy price *and* a truthy thumbnail survive. -/
def ebaySelect (items : List EbayItem) : List EbayItem :=
  items.filter (fun i => truthyStr i.price && truthyStr i.thumbnail)

/-- The eBay item mapping (`rating` falls back to `0`). -/
def ebayItemToProduct (i : EbayItem) : Product :=
  { id := identityOf i.title "eBay" i.link
    title := i.title
    price := i.price
    link := i.link
    source := "eBay"
    thumbnail := i.thumbnail
    rating := some (i.rating.getD 0)
    prediction := none }

/-- The full eBay normalization: filter, then map. -/
def ebayNormalize (items : List EbayItem) : List Product :=
  (ebaySelect items).map ebayItemToProduct

/-- Model of `Number.prototype.toFixed(2)` for the non-negative rationals
produced by `parsePrice`, and `"NaN"` for `NaN`.  No claim inspects
the rounded digits themselves. -/
def toFixed2 (o : Option ℚ) : String :=
  match o with
  | none => "NaN"
  | some q =>
    let n := (Int.floor (q * 100 + 1 / 2)).toNat
    toString (n / 100) ++ "." ++ (if n % 100 < 10 then "0" else "") ++ toString (n % 100)

/-- The per-product enrichment loop of each provider branch: attach
`getPricePrediction` (computed from the product's price-history rows
`hist p.id` and its *raw* price string), then reformat the price into
`'₹' + parseFloat(...).toFixed(2)` when it is truthy and does not
already contain `'₹'`. -/
def enrichProduct (hist : String → List String) (p : Product) : Product :=
  let pred := getPricePrediction (hist p.id) (p.price.getD "")
  let price2 : Option String :=
    match p.price with
    | none => none
    | some pr =>
      if !(pr == "") && !(pr.toList.contains '₹') then
        some ("₹" ++ toFixed2 (parsePrice pr))
      else some pr
  { p with price := price2, prediction := some pred }

/-- The tail of every provider branch: enrich each product, then rank. -/
def processResults (hist : String → List String) (ps : List Product) (query : String) :
    List Product :=
  filterAndSortProducts (ps.map (enrichProduct hist)) query

/-- Translation of `performSerpApiSearch(query)` as a function of the three upstream
outcomes.  Each provider block is `try { ...; if (data && data.FIELD)
{ ...; return ...; } } catch {...}`: the function returns out of the
first block whose request succeeded *and* whose body has the results
field — even when that field holds an empty array; a thrown error or a
missing field falls through to the next provider; when all three fall
through it throws `'No products found from any source...'`, modelled
by `Except.error ()`.  The database writes inside each block do not
affect the returned value. -/
def performSerpApiSearch (hist : String → List String) (google : UpstreamResp GoogleItem)
    (amazon : UpstreamResp AmazonItem) (ebay : UpstreamResp EbayItem) (query : String) :
    Except Unit (List Product) :=
  match google with
  | .ok (some items) => .ok (processResults hist (items.map googleNormalize) query)
  | _ =>
    match amazon with
    | .ok (some items) => .ok (processResults hist (items.map amazonNormalize) query)
    | _ =>
      match ebay with
      | .ok (some items) => .ok (processResults hist (ebayNormalize items) query)
      | _ => .error ()

/-- Returns `true` when the upstream outcome makes the source fall through to
the next provider: the request failed, or the results field is absent. -/
def fallsThrough {α : Type} : UpstreamResp α → Bool
  | .ok (some _) => false
  | _ => true

/-- Claim C1's pipeline, word for word: stop at the first adapter whose
*normalized result list* is non-empty, treat a failed adapter exactly
like an empty one, and fail only when all three are empty or failed. -/
def searchClaimSpec (hist : String → List String) (google : UpstreamResp GoogleItem)
    (amazon : UpstreamResp AmazonItem) (ebay : UpstreamResp EbayItem) (query : String) :
    Except Unit (List Product) :=
  let gl := match google with | .ok (some items) => items.map googleNormalize | _ => []
  let al := match amazon with | .ok (some items) => items.map amazonNormalize | _ => []
  let el := match ebay with | .ok (some items) => ebayNormalize items | _ => []
  if gl ≠ [] then .ok (processResults hist gl query)
  else if al ≠ [] then .ok (processResults hist al query)
  else if el ≠ [] then .ok (processResults hist el query)
  else .error ()

/-- A one-item Amazon result list used by the C1 counterexample. -/
def amazonProbeItem : AmazonItem :=
  ⟨"X", some "10", "l", none, none, none⟩

/-- A one-item eBay result list used by the C1 witness. -/
def ebayProbeItem : EbayItem :=
  ⟨"Y", some "20", "m", some "t", none⟩

/-- An eBay item with a price but no thumbnail (C4 counterexample). -/
def ebayNoThumbItem : EbayItem :=
  ⟨"T", some "100", "l", none, none⟩

deriving instance DecidableEq for Except

/-! ## Wishlist: `POST /wishlist/add` -/

/-- One row of the `wishlists` table (primary key
`(user_id, product_id)`). -/
structure WishRow where
  user_id : String
  product_id : String
  added_at : Nat
deriving DecidableEq, Repr

/-- The primary-key predicate of the `wishlists` table. -/
def wishKey (u p : String) (r : WishRow) : Bool :=
  r.user_id == u && r.product_id == p

/-- Translation of `INSERT OR IGNORE INTO wishlists ...` together with the handler's
`this.changes > 0` test: insert when the key is absent (`true`), leave
the table unchanged when it is present (`false`); never an error. -/
def wishlistAdd (tbl : List WishRow) (u p : String) (now : Nat) : List WishRow × Bool :=
  if tbl.any (wishKey u p) then (tbl, false)
  else (tbl ++ [⟨u, p, now⟩], true)

/-- The response message of `POST /wishlist/add` as a function of
`this.changes > 0`. -/
def wishlistAddMessage (inserted : Bool) : String :=
  if inserted then "Added to wishlist." else "Already in wishlist."

/-! ## Price-drop sweep: the `setInterval` worker -/

/-- One row of the sweep query (`cart` joined with `products` and
`customers`, `WHERE reminder_price IS NOT NULL`). -/
structure SweepRow where
  user_id : Nat
  product_id : String
  reminder_price : Option String
  title : String
  last_price : Option String
  email : String
  name : String
deriving DecidableEq, Repr

/-- Condition `!isNaN(c) && !isNaN(r) && c <= r` with `none` for `NaN`. -/
def bothValidLe (c r : Option ℚ) : Bool :=
  match c, r with
  | some c, some r => decide (c ≤ r)
  | _, _ => false

/-- The body of the sweep for one joined row: parse
`(row.last_price || '')` and `(row.reminder_price || '')`; when both
parse and the current price is at most the reminder price, send exactly
one price-drop email and clear the row's reminder
(`UPDATE cart SET reminder_price = NULL`); otherwise do nothing.
Returns (number of emails sent, the row as stored afterwards). -/
def sweepRowStep (row : SweepRow) : Nat × SweepRow :=
  let currentPrice := parsePrice (row.last_price.getD "")
  let reminderPrice := parsePrice (row.reminder_price.getD "")
  if bothValidLe currentPrice reminderPrice then
    (1, { row with reminder_price := none })
  else (0, row)

/-! ## Theorems about the ranker -/

theorem orderedInsert_congr {α : Type} (r s : α → α → Prop) [DecidableRel r] [DecidableRel s]
    (h : ∀ a b, r a b ↔ s a b) (a : α) : ∀ l : List α, l.orderedInsert r a = l.orderedInsert s a
  | [] => rfl
  | b :: l => by
    simp only [List.orderedInsert]
    by_cases hr : r a b
    · rw [if_pos hr, if_pos ((h a b).mp hr)]
    · rw [if_neg hr, if_neg (fun hs => hr ((h a b).mpr hs)), orderedInsert_congr r s h a l]

theorem insertionSort_congr {α : Type} (r s : α → α → Prop) [DecidableRel r] [DecidableRel s]
    (h : ∀ a b, r a b ↔ s a b) : ∀ l : List α, l.insertionSort r = l.insertionSort s
  | [] => rfl
  | a :: l => by
    simp only [List.insertionSort]
    rw [insertionSort_congr r s h l, orderedInsert_congr r s h a _]

/-- The comparator-induced order of the source coincides pointwise with
the lexicographic (relevance, zero-goes-last price) order. -/
theorem sortsBefore_iff_amended (query : String) (a b : Product) :
    sortsBefore query a b ↔ amendedLe query a b := by
  unfold sortsBefore cmpProducts amendedLe relRank
  cases ha : isRelevant query a.title <;> cases hb : isRelevant query b.title <;>
    simp [compare_le_iff_le]

theorem amendedLe_total (query : String) (a b : Product) :
    amendedLe query a b ∨ amendedLe query b a := by
  unfold amendedLe
  rcases Nat.lt_trichotomy (relRank query a) (relRank query b) with h | h | h
  · exact Or.inl (Or.inl h)
  · rcases le_total (jsSortPrice a) (jsSortPrice b) with hk | hk
    · exact Or.inl (Or.inr ⟨h, hk⟩)
    · exact Or.inr (Or.inr ⟨h.symm, hk⟩)
  · exact Or.inr (Or.inl h)

theorem amendedLe_trans (query : String) (a b c : Product) :
    amendedLe query a b → amendedLe query b c → amendedLe query a c := by
  unfold amendedLe
  rintro (h1 | ⟨h1, k1⟩) (h2 | ⟨h2, k2⟩)
  · exact Or.inl (h1.trans h2)
  · exact Or.inl (h2 ▸ h1)
  · exact Or.inl (h1 ▸ h2)
  · exact Or.inr ⟨h1.trans h2, k1.trans k2⟩

instance (query : String) : IsTotal Product (sortsBefore query) :=
  ⟨fun a b => by
    rcases amendedLe_total query a b with h | h
    · exact Or.inl ((sortsBefore_iff_amended query a b).mpr h)
    · exact Or.inr ((sortsBefore_iff_amended query b a).mpr h)⟩

instance (query : String) : IsTrans Product (sortsBefore query) :=
  ⟨fun a b c h1 h2 =>
    (sortsBefore_iff_amended query a c).mpr
      (amendedLe_trans query a b c ((sortsBefore_iff_amended query a b).mp h1)
        ((sortsBefore_iff_amended query b c).mp h2))⟩

/-- C3 (corrected): `filterAndSortProducts` is the stable three-key
sort of the claim **except** that a price parsing to the number `0`
sorts as positive infinity as well: the sort key is
`parseFloat(...) || Infinity` and `0` is falsy, so both un-parseable
and zero prices are sent to `Infinity`.  With that single amendment the
ranker equals the claimed stable sort on every input. -/
theorem filterAndSort_eq_rankAmended :
    ∀ (products : List Product) (query : String),
      filterAndSortProducts products query = rankAmended products query :=
  fun l q => insertionSort_congr _ _ (sortsBefore_iff_amended q) l

/-- C3 counterexample: with two equally non-relevant items priced
`"0"` and `"5"`, the source ranker puts the zero-priced item last
(`0 || Infinity = Infinity`), while the claim's sort puts the
zero-priced item first (its parsed numeric price `0` is the smaller).
So the ranker is not the claimed sort. -/
theorem filterAndSort_ne_rankClaim :
    filterAndSortProducts [cxZeroPrice, cxFivePrice] "z" = [cxFivePrice, cxZeroPrice] ∧
    rankClaim [cxZeroPrice, cxFivePrice] "z" = [cxZeroPrice, cxFivePrice] ∧
    filterAndSortProducts [cxZeroPrice, cxFivePrice] "z" ≠ rankClaim [cxZeroPrice, cxFivePrice] "z" := by
  refine ⟨by decide!, by decide!, by decide!⟩

/-- C7 (confirmed): the ranker returns a permutation of its input
(nothing dropped or added), and ranking an already-ranked list with the
same query returns it unchanged. -/
theorem filterAndSort_perm_idempotent :
    ∀ (products : List Product) (query : String),
      (filterAndSortProducts products query).Perm products ∧
      filterAndSortProducts (filterAndSortProducts products query) query =
        filterAndSortProducts products query :=
  fun l q =>
    ⟨List.perm_insertionSort (sortsBefore q) l,
      List.Sorted.insertionSort_eq (List.sorted_insertionSort (sortsBefore q) l)⟩

/-- C6 counterexample: on the claim's input the ranker does *not*
return Pro, Samsung, case: among the two non-relevant items the
500-rupee accessory sorts before the 70000-rupee Samsung, because
within equal relevance the comparator orders by ascending price only —
being an accessory plays no role beyond relevance. -/
theorem c6_not_claimed_order :
    filterAndSortProducts [c6Pro, c6Accessory, c6Samsung] "iphone 15" ≠
      [c6Pro, c6Samsung, c6Accessory] := by
  decide!

/-- C6 (corrected): the actual output order on the claim's input is
"iPhone 15 Pro" (relevant), then "iPhone 15 case" (non-relevant,
price 500), then "Samsung S25" (non-relevant, price 70000). -/
theorem c6_actual_order :
    filterAndSortProducts [c6Pro, c6Accessory, c6Samsung] "iphone 15" =
      [c6Pro, c6Accessory, c6Samsung] := by
  decide!

/-! ## Theorems about the trend classifier -/

/-- Evaluation of `parseFloat` on a string of dots (no digits) is `NaN`. -/
theorem parseFloatOfStripped_allDots {cs : List Char} (h : ∀ c ∈ cs, c = '.') :
    parseFloatOfStripped cs = none := by
  unfold parseFloatOfStripped
  cases cs with
  | nil => rfl
  | cons c rest =>
    have hc : c = '.' := h c (by simp)
    subst hc
    have h1 : List.takeWhile Char.isDigit ('.' :: rest) = [] := by
      simp [List.takeWhile]
    have h2 : List.dropWhile Char.isDigit ('.' :: rest) = '.' :: rest := by
      simp [List.dropWhile]
    rw [h1, h2]
    have h3 : rest.takeWhile Char.isDigit = [] := by
      cases rest with
      | nil => rfl
      | cons d tl =>
        have hd : d = '.' := h d (by simp)
        subst hd
        simp [List.takeWhile]
    simp [h3]

/-- Stripping a digit-free string leaves only dots. -/
theorem stripToNum_noDigit {cs : List Char} (h : ∀ c ∈ cs, ¬ c.isDigit) :
    ∀ c ∈ stripToNum cs, c = '.' := by
  intro c hc
  unfold stripToNum at hc
  obtain ⟨hmem, hkeep⟩ := List.mem_filter.mp hc
  rcases Bool.or_eq_true_iff.mp hkeep with hdig | hdot
  · exact absurd hdig (h c hmem)
  · exact beq_iff_eq.mp hdot

/-- A price string with no digit parses to `NaN`. -/
theorem parsePrice_noDigit {s : String} (h : ∀ c ∈ s.toList, ¬ c.isDigit) :
    parsePrice s = none :=
  parseFloatOfStripped_allDots (stripToNum_noDigit h)

/-- C2 (confirmed): with a parseable current price and at least three
parseable prices among the five most recent history rows, the
classifier returns exactly the first matching branch of the claim's
ordered min/max/mean threshold sequence; with fewer than three
parseable history prices it returns `neutral` regardless of the
current price. -/
theorem getPricePrediction_spec :
    (∀ (histDesc : List String) (currentPrice : String) (c : ℚ),
        parsePrice currentPrice = some c →
        3 ≤ (((histDesc.take 5).map parsePrice).filterMap id).length →
        getPricePrediction histDesc currentPrice =
          trendSpec c (listMin (((histDesc.take 5).map parsePrice).filterMap id))
            (listMax (((histDesc.take 5).map parsePrice).filterMap id))
            ((((histDesc.take 5).map parsePrice).filterMap id).sum /
              ((((histDesc.take 5).map parsePrice).filterMap id).length : ℚ))) ∧
    (∀ (histDesc : List String) (currentPrice : String),
        (((histDesc.take 5).map parsePrice).filterMap id).length < 3 →
        getPricePrediction histDesc currentPrice = Trend.neutral) := by
  constructor
  · intro hist cur c hc h3
    have hlen : (((hist.take 5).map parsePrice).filterMap id).length ≤ (hist.take 5).length := by
      calc (((hist.take 5).map parsePrice).filterMap id).length
          ≤ ((hist.take 5).map parsePrice).length := List.length_filterMap_le id _
        _ = (hist.take 5).length := List.length_map _ _
    unfold getPricePrediction trendSpec
    rw [if_neg (by omega), if_neg (by omega), hc]
    simp only [nanLe, nanGe, nanLt, nanGt, decide_eq_true_eq]
  · intro hist cur hlt
    unfold getPricePrediction
    by_cases hrows : (hist.take 5).length < 3
    · rw [if_pos hrows]
    · rw [if_neg hrows, if_pos hlt]

/-- Witness for C2: the specification's own test vectors.  History
`{100,100,100}` with current price `94` hits the first branch
(`94 ≤ min·1.05 = 105`) and returns `buy`; a two-row history returns
`neutral`. -/
theorem getPricePrediction_spec_witness :
    getPricePrediction ["100", "100", "100"] "94" = Trend.buy ∧
    getPricePrediction ["100", "100"] "80" = Trend.neutral := by
  constructor
  · have h := getPricePrediction_spec.1 ["100", "100", "100"] "94" 94 (by decide!) (by decide!)
    rw [h]; decide!
  · exact getPricePrediction_spec.2 ["100", "100"] "80" (by decide!)

/-- C10 (confirmed): with at least three parseable history prices, a
current price string containing no digit parses to `NaN`, every one of
the four threshold comparisons is false on `NaN`, and the classifier
falls through to `neutral`. -/
theorem getPricePrediction_nan_neutral :
    ∀ (histDesc : List String) (currentPrice : String),
      (∀ c ∈ currentPrice.toList, ¬ c.isDigit) →
      3 ≤ (((histDesc.take 5).map parsePrice).filterMap id).length →
      getPricePrediction histDesc currentPrice = Trend.neutral := by
  intro hist cur hnd h3
  have hlen : (((hist.take 5).map parsePrice).filterMap id).length ≤ (hist.take 5).length := by
    calc (((hist.take 5).map parsePrice).filterMap id).length
        ≤ ((hist.take 5).map parsePrice).length := List.length_filterMap_le id _
      _ = (hist.take 5).length := List.length_map _ _
  unfold getPricePrediction
  rw [if_neg (by omega), if_neg (by omega), parsePrice_noDigit hnd]
  simp [nanLe, nanGe, nanLt, nanGt]

/-- Witness for C10: three parseable history rows and the digit-free
current price `"abc"` give `neutral`. -/
theorem getPricePrediction_nan_neutral_witness :
    getPricePrediction ["100", "100", "100"] "abc" = Trend.neutral :=
  getPricePrediction_nan_neutral ["100", "100", "100"] "abc" (by decide!) (by decide!)

/-! ## Theorems about the identity resolver -/

theorem charToNat_lt (c : Char) : c.toNat < 1114112 := by
  rcases c.valid with h | h
  · exact Nat.lt_trans h (by norm_num)
  · exact h.2

theorem utf8Char_lt256 (c : Char) : ∀ b ∈ utf8Char c, b < 256 := by
  have h := charToNat_lt c
  simp only [utf8Char]
  split_ifs with h1 h2 h3 <;> intro b hb <;> simp at hb <;> omega

theorem utf8Char_ne_nil (c : Char) : utf8Char c ≠ [] := by
  simp only [utf8Char]
  split_ifs <;> simp

theorem utf8Char_inj {c d : Char} (h : utf8Char c = utf8Char d) : c = d := by
  have hc := charToNat_lt c
  have hd := charToNat_lt d
  have hnat : c.toNat = d.toNat := by
    simp only [utf8Char] at h
    split_ifs at h <;> simp_all <;> omega
  calc c = Char.ofNat c.toNat := (Char.ofNat_toNat c).symm
    _ = Char.ofNat d.toNat := by rw [hnat]
    _ = d := Char.ofNat_toNat d

theorem utf8Char_len_eq {c d : Char} (h : (utf8Char c).head? = (utf8Char d).head?) :
    (utf8Char c).length = (utf8Char d).length := by
  have hc := charToNat_lt c
  have hd := charToNat_lt d
  simp only [utf8Char] at h ⊢
  split_ifs at h ⊢ <;> simp_all <;> omega

theorem utf8Encode_lt256 : ∀ (l : List Char), ∀ b ∈ utf8Encode l, b < 256
  | [] => by simp [utf8Encode]
  | c :: cs => by
    intro b hb
    unfold utf8Encode at hb
    rcases List.mem_append.mp hb with h | h
    · exact utf8Char_lt256 c b h
    · exact utf8Encode_lt256 cs b h

/-- UTF-8 is a prefix code: the encoded byte stream determines the
character stream. -/
theorem utf8Encode_inj : ∀ {l1 l2 : List Char}, utf8Encode l1 = utf8Encode l2 → l1 = l2
  | [], [], _ => rfl
  | [], c :: l2, h => by
    exfalso
    obtain ⟨a, as, ha⟩ := List.exists_cons_of_ne_nil (utf8Char_ne_nil c)
    unfold utf8Encode at h
    rw [ha] at h
    simp at h
  | c :: l1, [], h => by
    exfalso
    obtain ⟨a, as, ha⟩ := List.exists_cons_of_ne_nil (utf8Char_ne_nil c)
    unfold utf8Encode at h
    rw [ha] at h
    simp at h
  | c :: l1, d :: l2, h => by
    unfold utf8Encode at h
    obtain ⟨a, as, ha⟩ := List.exists_cons_of_ne_nil (utf8Char_ne_nil c)
    obtain ⟨b, bs, hb⟩ := List.exists_cons_of_ne_nil (utf8Char_ne_nil d)
    have hhd : (utf8Char c).head? = (utf8Char d).head? := by
      rw [ha, hb]
      rw [ha, hb] at h
      simp only [List.cons_append, List.cons.injEq] at h
      simp [h.1]
    obtain ⟨h1, h2⟩ := List.append_inj h (utf8Char_len_eq hhd)
    rw [utf8Char_inj h1, utf8Encode_inj h2]

theorem b64Inv_leftInv : ∀ i < 64, b64Inv (b64Char i) = i := by decide!

theorem b64Char_ne_pad : ∀ i < 64, b64Char i ≠ '=' := by decide!

theorem b64Char_inj {i j : Nat} (h : b64Char i = b64Char j) (hi : i < 64) (hj : j < 64) :
    i = j := by
  have h1 := b64Inv_leftInv i hi
  have h2 := b64Inv_leftInv j hj
  rw [← h1, ← h2, h]

/-- Padded base64 is injective on byte lists. -/
theorem base64Encode_inj : ∀ (l1 l2 : List Nat), (∀ b ∈ l1, b < 256) → (∀ b ∈ l2, b < 256) →
    base64Encode l1 = base64Encode l2 → l1 = l2
  | [], [], _, _, _ => rfl
  | [], [_], _, _, h => by simp [base64Encode] at h
  | [], [_, _], _, _, h => by simp [base64Encode] at h
  | [], _ :: _ :: _ :: _, _, _, h => by simp [base64Encode] at h
  | [_], [], _, _, h => by simp [base64Encode] at h
  | [_, _], [], _, _, h => by simp [base64Encode] at h
  | _ :: _ :: _ :: _, [], _, _, h => by simp [base64Encode] at h
  | [a1], [b1], ha, hb, h => by
    have ha1 : a1 < 256 := ha a1 (by simp)
    have hb1 : b1 < 256 := hb b1 (by simp)
    simp only [base64Encode, List.cons.injEq, and_true] at h
    have e1 := b64Char_inj h.1 (by omega) (by omega)
    have e2 := b64Char_inj h.2 (by omega) (by omega)
    have : a1 = b1 := by omega
    rw [this]
  | [a1], [b1, b2], ha, hb, h => by
    have hb2 : b2 < 256 := hb b2 (by simp)
    exfalso
    simp only [base64Encode, List.cons.injEq] at h
    exact b64Char_ne_pad (b2 % 16 * 4) (by omega) h.2.2.1.symm
  | [a1], b1 :: b2 :: b3 :: rest, ha, hb, h => by
    have hb3 : b3 < 256 := hb b3 (by simp)
    exfalso
    simp only [base64Encode, List.cons.injEq] at h
    exact b64Char_ne_pad (b3 % 64) (by omega) h.2.2.2.1.symm
  | [a1, a2], [b1], ha, hb, h => by
    have ha2 : a2 < 256 := ha a2 (by simp)
    exfalso
    simp only [base64Encode, List.cons.injEq] at h
    exact b64Char_ne_pad (a2 % 16 * 4) (by omega) h.2.2.1
  | [a1, a2], [b1, b2], ha, hb, h => by
    have ha1 : a1 < 256 := ha a1 (by simp)
    have ha2 : a2 < 256 := ha a2 (by simp)
    have hb1 : b1 < 256 := hb b1 (by simp)
    have hb2 : b2 < 256 := hb b2 (by simp)
    simp only [base64Encode, List.cons.injEq, and_true] at h
    have e1 := b64Char_inj h.1 (by omega) (by omega)
    have e2 := b64Char_inj h.2.1 (by omega) (by omega)
    have e3 := b64Char_inj h.2.2 (by omega) (by omega)
    have hab : a1 = b1 ∧ a2 = b2 := by omega
    rw [hab.1, hab.2]
  | [a1, a2], b1 :: b2 :: b3 :: rest, ha, hb, h => by
    have hb3 : b3 < 256 := hb b3 (by simp)
    exfalso
    simp only [base64Encode, List.cons.injEq] at h
    exact b64Char_ne_pad (b3 % 64) (by omega) h.2.2.2.1.symm
  | a1 :: a2 :: a3 :: rest1, [b1], ha, hb, h => by
    have ha3 : a3 < 256 := ha a3 (by simp)
    exfalso
    simp only [base64Encode, List.cons.injEq] at h
    exact b64Char_ne_pad (a3 % 64) (by omega) h.2.2.2.1
  | a1 :: a2 :: a3 :: rest1, [b1, b2], ha, hb, h => by
    have ha3 : a3 < 256 := ha a3 (by simp)
    exfalso
    simp only [base64Encode, List.cons.injEq] at h
    exact b64Char_ne_pad (a3 % 64) (by omega) h.2.2.2.1
  | a1 :: a2 :: a3 :: rest1, b1 :: b2 :: b3 :: rest2, ha, hb, h => by
    have ha1 : a1 < 256 := ha a1 (by simp)
    have ha2 : a2 < 256 := ha a2 (by simp)
    have ha3 : a3 < 256 := ha a3 (by simp)
    have hb1 : b1 < 256 := hb b1 (by simp)
    have hb2 : b2 < 256 := hb b2 (by simp)
    have hb3 : b3 < 256 := hb b3 (by simp)
    simp only [base64Encode, List.cons.injEq] at h
    obtain ⟨c1, c2, c3, c4, c5⟩ := h
    have e1 := b64Char_inj c1 (by omega) (by omega)
    have e2 := b64Char_inj c2 (by omega) (by omega)
    have e3 := b64Char_inj c3 (by omega) (by omega)
    have e4 := b64Char_inj c4 (by omega) (by omega)
    have hr := base64Encode_inj rest1 rest2
      (fun b hbm => ha b (by simp [hbm])) (fun b hbm => hb b (by simp [hbm])) c5
    have hab : a1 = b1 ∧ a2 = b2 ∧ a3 = b3 := by omega
    rw [hab.1, hab.2.1, hab.2.2, hr]

/-- C5 (corrected): the identity is a pure function of the dash-joined
concatenation `title + "-" + source + "-" + link` — two triples get the
same identity exactly when their joined strings are equal.  Identical
triples therefore always collide to the same identity, but two triples
that differ in a field can still share an identity when dashes inside
the fields realign the concatenation. -/
theorem identityOf_eq_iff :
    ∀ t1 s1 l1 t2 s2 l2 : String,
      identityOf t1 s1 l1 = identityOf t2 s2 l2 ↔
        (t1 ++ "-" ++ s1 ++ "-" ++ l1) = (t2 ++ "-" ++ s2 ++ "-" ++ l2) := by
  intro t1 s1 l1 t2 s2 l2
  constructor
  · intro h
    unfold identityOf at h
    have hdata : base64Encode (utf8Encode (t1 ++ "-" ++ s1 ++ "-" ++ l1).toList) =
        base64Encode (utf8Encode (t2 ++ "-" ++ s2 ++ "-" ++ l2).toList) :=
      congrArg String.data h
    have h2 := base64Encode_inj _ _ (utf8Encode_lt256 _) (utf8Encode_lt256 _) hdata
    exact String.ext (utf8Encode_inj h2)
  · intro h
    unfold identityOf
    rw [h]

/-- C5 counterexample: the triples `("a-b", "c", "l")` and
`("a", "b-c", "l")` differ in two fields yet produce the same joined
string `"a-b-c-l"`, hence the same identity — refuting "changing any
one of the three fields changes the identity". -/
theorem identityOf_collision :
    identityOf "a-b" "c" "l" = identityOf "a" "b-c" "l" ∧
    (("a-b", "c", "l") : String × String × String) ≠ ("a", "b-c", "l") := by
  exact ⟨by decide!, by decide!⟩

example : identityOf "a" "b" "c" = "YS1iLWM=" := by decide!

/-! ## Theorems about the aggregation pipeline -/

/-- C1 counterexample: Google's request succeeds and its
`shopping_results` field is present but holds an *empty* array.  The
source returns that empty list — Amazon, though it has an item, is
never consulted — while the claim's pipeline (stop at the first
non-empty adapter, fall through on empty) would return Amazon's item.
Present-but-empty does not fall through, refuting both "stops at the
first adapter whose normalized result list is non-empty" and "fails
with NoResultsError iff every adapter returned empty or failed". -/
theorem search_counterexample :
    performSerpApiSearch (fun _ => []) (.ok (some [])) (.ok (some [amazonProbeItem])) .fail "x" =
      .ok [] ∧
    searchClaimSpec (fun _ => []) (.ok (some [])) (.ok (some [amazonProbeItem])) .fail "x" ≠
      performSerpApiSearch (fun _ => []) (.ok (some [])) (.ok (some [amazonProbeItem])) .fail "x" := by
  exact ⟨by decide!, by decide!⟩

/-- C1 (corrected): the pipeline consults Google Shopping, Amazon and
eBay in that fixed order, but the stopping rule is: return out of the
first provider whose request succeeded and whose body *contains the
results field* — even when that field holds an empty array (the source
tests field presence, not non-emptiness); a failed request or a missing
field falls through; the search fails iff all three fall through. -/
theorem search_spec :
    ∀ (hist : String → List String) (g : UpstreamResp GoogleItem)
      (a : UpstreamResp AmazonItem) (e : UpstreamResp EbayItem) (q : String),
      (performSerpApiSearch hist g a e q = .error () ↔
        fallsThrough g = true ∧ fallsThrough a = true ∧ fallsThrough e = true) ∧
      (∀ items, g = .ok (some items) →
        performSerpApiSearch hist g a e q =
          .ok (processResults hist (items.map googleNormalize) q)) ∧
      (∀ items, fallsThrough g = true → a = .ok (some items) →
        performSerpApiSearch hist g a e q =
          .ok (processResults hist (items.map amazonNormalize) q)) ∧
      (∀ items, fallsThrough g = true → fallsThrough a = true → e = .ok (some items) →
        performSerpApiSearch hist g a e q = .ok (processResults hist (ebayNormalize items) q)) := by
  intro hist g a e q
  refine ⟨?_, ?_, ?_, ?_⟩ <;>
    rcases g with _ | (_ | gi) <;> rcases a with _ | (_ | ai) <;> rcases e with _ | (_ | ei) <;>
      simp [performSerpApiSearch, fallsThrough]

/-- Witness for C1: with Google failed and Amazon's field present but
empty, the pipeline returns out of the Amazon branch with the empty
list; with Google failed and Amazon's field missing, it returns eBay's
processed results. -/
theorem search_spec_witness :
    performSerpApiSearch (fun _ => []) .fail (.ok (some [])) (.ok (some [ebayProbeItem])) "q" =
      .ok [] ∧
    performSerpApiSearch (fun _ => []) .fail (.ok none) (.ok (some [ebayProbeItem])) "q" =
      .ok (processResults (fun _ => []) (ebayNormalize [ebayProbeItem]) "q") := by
  constructor
  · have h := (search_spec (fun _ => []) .fail (.ok (some [])) (.ok (some [ebayProbeItem]))
      "q").2.2.1 [] rfl rfl
    exact h
  · exact (search_spec (fun _ => []) .fail (.ok none) (.ok (some [ebayProbeItem]))
      "q").2.2.2 [ebayProbeItem] rfl rfl rfl

/-- C4 counterexample: an eBay item that *has* a price but lacks a
thumbnail is dropped from the normalized list — the source filter is
`item.price && item.thumbnail` (keep only when both are present), not
"drop only when both are missing". -/
theorem ebay_drops_priced_item :
    truthyStr ebayNoThumbItem.price = true ∧ ebayNormalize [ebayNoThumbItem] = [] := by
  exact ⟨by decide!, by decide!⟩

/-- C4 (corrected): for the eBay adapter only, an upstream item is kept
exactly when it has both a truthy price and a truthy thumbnail; an item
lacking either is dropped before the mapping.  Google and Amazon drop
nothing: their normalizations preserve length. -/
theorem ebayNormalize_spec :
    (∀ (i : EbayItem) (items : List EbayItem),
        ebayNormalize (i :: items) =
          (if truthyStr i.price && truthyStr i.thumbnail then [ebayItemToProduct i] else []) ++
            ebayNormalize items) ∧
    (∀ gItems : List GoogleItem, (gItems.map googleNormalize).length = gItems.length) ∧
    (∀ aItems : List AmazonItem, (aItems.map amazonNormalize).length = aItems.length) := by
  refine ⟨fun i items => ?_, fun g => by simp, fun a => by simp⟩
  unfold ebayNormalize ebaySelect
  cases h : truthyStr i.price && truthyStr i.thumbnail <;>
    simp [List.filter_cons, h]

/-! ## Theorems about the wishlist and the price-drop sweep -/

/-- C9 (confirmed): starting from a table with no entry for
`(u, p)`, the first add inserts exactly one row carrying the first
call's timestamp and reports insertion ("Added to wishlist."); the
second add leaves the table unchanged and reports presence
("Already in wishlist.") instead of erroring; exactly one row with key
`(u, p)` is stored afterwards, still with the original timestamp. -/
theorem wishlistAdd_idempotent :
    ∀ (tbl : List WishRow) (u p : String) (t1 t2 : Nat),
      tbl.countP (wishKey u p) = 0 →
      wishlistAdd tbl u p t1 = (tbl ++ [⟨u, p, t1⟩], true) ∧
      wishlistAdd (tbl ++ [⟨u, p, t1⟩]) u p t2 = (tbl ++ [⟨u, p, t1⟩], false) ∧
      (tbl ++ [(⟨u, p, t1⟩ : WishRow)]).countP (wishKey u p) = 1 ∧
      (tbl ++ [(⟨u, p, t1⟩ : WishRow)]).filter (wishKey u p) = [(⟨u, p, t1⟩ : WishRow)] ∧
      wishlistAddMessage true = "Added to wishlist." ∧
      wishlistAddMessage false = "Already in wishlist." := by
  intro tbl u p t1 t2 h0
  have hall : ∀ r ∈ tbl, ¬ wishKey u p r = true := List.countP_eq_zero.mp h0
  have hnone : tbl.any (wishKey u p) = false := by
    rw [List.any_eq_false]
    exact hall
  have hkey : wishKey u p ⟨u, p, t1⟩ = true := by simp [wishKey]
  have hfilter : tbl.filter (wishKey u p) = [] := by
    rw [List.filter_eq_nil_iff]
    exact hall
  refine ⟨?_, ?_, ?_, ?_, rfl, rfl⟩
  · unfold wishlistAdd
    rw [hnone]
    simp
  · unfold wishlistAdd
    have hany : (tbl ++ [(⟨u, p, t1⟩ : WishRow)]).any (wishKey u p) = true := by
      simp [List.any_append, hkey]
    rw [hany]
    simp
  · rw [List.countP_append, h0]
    simp [List.countP_cons, hkey]
  · rw [List.filter_append, hfilter]
    simp [hkey]

/-- Witness for C9: two adds of `("u1", "prod1")` into an empty table. -/
theorem wishlistAdd_idempotent_witness :
    wishlistAdd [] "u1" "prod1" 5 = ([⟨"u1", "prod1", 5⟩], true) ∧
    wishlistAdd [⟨"u1", "prod1", 5⟩] "u1" "prod1" 9 = ([⟨"u1", "prod1", 5⟩], false) ∧
    ([(⟨"u1", "prod1", 5⟩ : WishRow)]).countP (wishKey "u1" "prod1") = 1 := by
  have h := wishlistAdd_idempotent [] "u1" "prod1" 5 9 rfl
  exact ⟨by simpa using h.1, by simpa using h.2.1, by simpa using h.2.2.1⟩

/-- C8 (confirmed): for a sweep row whose reminder is set, exactly one
email is sent and the stored reminder becomes `NULL` iff both the
product's last price and the reminder price parse to numbers with
current ≤ reminder; otherwise no email is sent and the row is left
unchanged. -/
theorem sweepRowStep_spec :
    ∀ (row : SweepRow) (rp : String), row.reminder_price = some rp →
      ((∃ c r, parsePrice (row.last_price.getD "") = some c ∧
          parsePrice rp = some r ∧ c ≤ r) →
        sweepRowStep row = (1, { row with reminder_price := none })) ∧
      (¬ (∃ c r, parsePrice (row.last_price.getD "") = some c ∧
          parsePrice rp = some r ∧ c ≤ r) →
        sweepRowStep row = (0, row)) := by
  intro row rp hrp
  constructor
  · rintro ⟨c, r, hc, hr, hle⟩
    unfold sweepRowStep
    rw [hrp]
    simp only [Option.getD_some, hc, hr, bothValidLe]
    rw [if_pos (by simpa using hle)]
  · intro hno
    have hcond : bothValidLe (parsePrice (row.last_price.getD ""))
        (parsePrice rp) = false := by
      rcases hcp : parsePrice (row.last_price.getD "") with _ | c
      · simp [bothValidLe]
      · rcases hrpp : parsePrice rp with _ | r
        · simp [bothValidLe]
        · have : ¬ c ≤ r := fun hle => hno ⟨c, r, hcp, hrpp, hle⟩
          simp [bothValidLe, this]
    unfold sweepRowStep
    rw [hrp]
    simp only [Option.getD_some]
    simp [hcond]

/-- Witness for C8: the specification's vectors — reminder `"₹50000"`
with last price `"₹45000"` sends one email and clears the reminder;
reminder `"₹40000"` with last price `"₹45000"` does nothing. -/
theorem sweepRowStep_spec_witness :
    sweepRowStep ⟨1, "p", some "₹50000", "T", some "₹45000", "e", "n"⟩ =
      (1, ⟨1, "p", none, "T", some "₹45000", "e", "n"⟩) ∧
    sweepRowStep ⟨1, "p", some "₹40000", "T", some "₹45000", "e", "n"⟩ =
      (0, ⟨1, "p", some "₹40000", "T", some "₹45000", "e", "n"⟩) := by
  constructor
  · exact (sweepRowStep_spec ⟨1, "p", some "₹50000", "T", some "₹45000", "e", "n"⟩ "₹50000"
      rfl).1 ⟨45000, 50000, by decide!, by decide!, by decide!⟩
  · refine (sweepRowStep_spec ⟨1, "p", some "₹40000", "T", some "₹45000", "e", "n"⟩ "₹40000"
      rfl).2 ?_
    rintro ⟨c, r, hc, hr, hle⟩
    simp only [Option.getD_some] at hc
    have hc45 : parsePrice "₹45000" = some ((45000 : ℚ)) := by decide!
    have hr40 : parsePrice "₹40000" = some ((40000 : ℚ)) := by decide!
    rw [hc45] at hc
    rw [hr40] at hr
    rw [← Option.some.inj hc, ← Option.some.inj hr] at hle
    exact absurd hle (by decide!)
